import Mathlib

/-!
Verification development for the happy-english grammar-correction app.

The repository has two variants of the same single-page app:
* `src/App.tsx` — "labeled-section mode": the model is asked to answer with
  three literal markers `CORRECTED_TEXT:`, `WORD_USAGE:`, `EXPLANATION:` and
  the response is parsed with three regexes;
* a second variant (structured mode) that constrains the API with a zod
  three-field schema and decodes the response with `JSON.parse` + `schema.parse`.

Below, the parsing, the zod decoding and the event handlers
(`handleCorrect`, `handleSaveApiKey`) are embedded as pure Lean functions;
the browser environment (network outcome, local storage) is passed
explicitly.
-/

/-- Whitespace predicate modelling both the regex class `\s` and
`String.prototype.trim` for the character set the app deals with. -/
def isWs (c : Char) : Bool :=
  c = ' ' || c = '\t' || c = '\n' || c = '\r' ||
  c = Char.ofNat 11 || c = Char.ofNat 12

/-- `startsWithL pat l` : the character list `l` starts with `pat`. -/
def startsWithL : List Char → List Char → Bool
  | [], _ => true
  | _ :: _, [] => false
  | c :: cs, d :: ds => c = d && startsWithL cs ds

/-- `containsSub m l` : the marker `m` occurs as a contiguous substring of `l`. -/
def containsSub (m : List Char) : List Char → Bool
  | [] => match m with
    | [] => true
    | _ :: _ => false
  | c :: cs => startsWithL m (c :: cs) || containsSub m cs

/-- Suffix of `l` right after the first occurrence of the marker `m`
(`none` when `m` does not occur).  This models where a JS regex whose
pattern starts with the literal `m` places the continuation of the match. -/
def findMarker (m : List Char) : List Char → Option (List Char)
  | [] => match m with
    | [] => some []
    | _ :: _ => none
  | c :: cs =>
    if startsWithL m (c :: cs) then some ((c :: cs).drop m.length)
    else findMarker m cs

/-- Everything of `l` strictly before the first occurrence of the marker `m`
(all of `l` when `m` does not occur).  Models the lazy group
`([\s\S]*?)(?=M|$)` of the section regexes. -/
def takeUntilMarker (m : List Char) : List Char → List Char
  | [] => []
  | c :: cs =>
    if startsWithL m (c :: cs) then []
    else c :: takeUntilMarker m cs

/-- Drop the trailing run of whitespace characters. -/
def trimEnd : List Char → List Char
  | [] => []
  | c :: cs =>
    match trimEnd cs with
    | [] => if isWs c then [] else [c]
    | d :: ds => c :: d :: ds

/-- Drop leading and trailing whitespace: `String.prototype.trim` on lists. -/
def trimL (l : List Char) : List Char := trimEnd (l.dropWhile isWs)

/-- `String.prototype.trim`. -/
def trimStr (s : String) : String := (trimL s.toList).asString

/-- `s.includes(m)` on strings. -/
def containsStr (m s : String) : Bool := containsSub m.toList s.toList

/-- Suffix of `s` right after the first occurrence of marker `m`
(empty when absent). -/
def afterFirstStr (m s : String) : String :=
  match findMarker m.toList s.toList with
  | some r => r.asString
  | none => ""

/-- The three-field record both variants converge on. -/
structure CorrectionResult where
  correctedText : String
  wordUsage : String
  explanation : String
deriving DecidableEq, Repr

def ctMarker : List Char := "CORRECTED_TEXT:".toList
def wuMarker : List Char := "WORD_USAGE:".toList
def exMarker : List Char := "EXPLANATION:".toList

/-- Capture of `/M1:\s*([\s\S]*?)(?=M2:|$)/` applied to `text`: the first
occurrence of `m1` is located, the greedy `\s*` skips whitespace, and the
lazy group stops at the first later occurrence of `m2` or at end of input. -/
def sectionCapture (m1 m2 : List Char) (text : List Char) : Option (List Char) :=
  (findMarker m1 text).map fun rest => takeUntilMarker m2 (rest.dropWhile isWs)

/-- Capture of `/M1:\s*([\s\S]*)/` applied to `text`: everything after the
first occurrence of `m1` and the whitespace run following it. -/
def sectionCaptureEnd (m1 : List Char) (text : List Char) : Option (List Char) :=
  (findMarker m1 text).map fun rest => rest.dropWhile isWs

def noCorrectionMsg : String := "No correction found"
def noWordUsageMsg : String := "No word usage information found"
def noExplanationMsg : String := "No explanation found"

/-- `m ? m[1].trim() : msg` — the capture is trimmed when the regex
matched, and the fixed placeholder is used when it did not. -/
def sectionField (o : Option (List Char)) (msg : String) : String :=
  match o with
  | some c => (trimL c).asString
  | none => msg

/-- Labeled-section response parsing, from `handleCorrect` in `src/App.tsx`
(the three `text.match` regexes, `.trim()` on each capture, and the fixed
placeholder when a regex does not match). -/
def parseLabeled (text : String) : CorrectionResult :=
  { correctedText := sectionField (sectionCapture ctMarker wuMarker text.toList) noCorrectionMsg
    wordUsage := sectionField (sectionCapture wuMarker exMarker text.toList) noWordUsageMsg
    explanation := sectionField (sectionCaptureEnd exMarker text.toList) noExplanationMsg }

/-! ## JSON values and the zod schema (structured mode) -/

/-- JSON values, as produced by `JSON.parse` (numeric values are irrelevant
here: the schema only ever asks whether a value is a string). -/
inductive Json where
  | str (s : String)
  | num (n : Int)
  | bool (b : Bool)
  | null
  | arr (xs : List Json)
  | obj (fields : List (String × Json))

/-- Field lookup in a JSON object. -/
def lookupJson (k : String) : List (String × Json) → Option Json
  | [] => none
  | (k', v) :: fs => if k' = k then some v else lookupJson k fs

/-- `correctionSchema.parse`: the zod object schema with the three
`z.string()` fields.  Decoding fails (zod throws, modelled as `none`) when
the value is not an object or any of the three fields is missing or not a
string; extra keys are ignored. -/
def zodParseCorrection (j : Json) : Option CorrectionResult :=
  match j with
  | .obj fs =>
    match lookupJson "correctedText" fs, lookupJson "wordUsage" fs,
          lookupJson "explanation" fs with
    | some (.str a), some (.str b), some (.str c) =>
      some { correctedText := a, wordUsage := b, explanation := c }
    | _, _, _ => none
  | _ => none

/-! ## Session state and event handlers -/

/-- The react state of the component (both variants have the same fields). -/
structure SessionState where
  apiKey : String
  showSettings : Bool
  tempApiKey : String
  inputText : String
  result : Option CorrectionResult
  loading : Bool
  error : String
  simpleView : Bool
deriving DecidableEq, Repr

/-- Outcome of one run of an event handler: the state after it returns, and
whether the remote correction client was invoked during the run. -/
structure StepResult where
  state : SessionState
  apiCalled : Bool
deriving DecidableEq, Repr

/-- What the environment does when the labeled-mode variant calls
`ai.models.generateContent`: the call throws (network/auth error), or
resolves with `response.text || ''`. -/
inductive ApiOutcome where
  | failure
  | success (text : String)

/-- What the environment does when the structured-mode variant calls the
API: the call throws, resolves with empty text, resolves with text that
`JSON.parse` rejects, or resolves with text that `JSON.parse` turns into
the JSON value `j`. -/
inductive StructuredOutcome where
  | failure
  | emptyText
  | badJson
  | json (j : Json)

def errEnterSentence : String := "Please enter a sentence to correct."
def errEnterText : String := "Please enter text to correct."
def errSetKey : String := "Please set your Google API key first."
def errGeneric : String := "Failed to get correction. Please check your API key and try again."

/-- `handleCorrect` of the labeled-mode variant (`src/App.tsx`), as a
function of the environment's outcome.  The two guard branches return
before the client is invoked; otherwise loading is set, error and result
cleared, the call made, and the `finally` block clears loading. -/
def handleCorrectLabeled (api : ApiOutcome) (s : SessionState) : StepResult :=
  if trimStr s.inputText = "" then
    ⟨{ s with error := errEnterSentence }, false⟩
  else if s.apiKey = "" then
    ⟨{ s with showSettings := true, error := errSetKey }, false⟩
  else
    let s1 : SessionState := { s with loading := true, error := "", result := none }
    let s2 : SessionState :=
      match api with
      | .failure => { s1 with error := errGeneric }
      | .success text =>
        if text = "" then { s1 with error := errGeneric }
        else { s1 with result := some (parseLabeled text) }
    ⟨{ s2 with loading := false }, true⟩

/-- `handleCorrect` of the structured-mode variant: same guards (with its
own empty-input message), then `JSON.parse` + `correctionSchema.parse`;
any throw lands in the catch branch with the generic error message. -/
def handleCorrectStructured (api : StructuredOutcome) (s : SessionState) : StepResult :=
  if trimStr s.inputText = "" then
    ⟨{ s with error := errEnterText }, false⟩
  else if s.apiKey = "" then
    ⟨{ s with showSettings := true, error := errSetKey }, false⟩
  else
    let s1 : SessionState := { s with loading := true, error := "", result := none }
    let s2 : SessionState :=
      match api with
      | .failure => { s1 with error := errGeneric }
      | .emptyText => { s1 with error := errGeneric }
      | .badJson => { s1 with error := errGeneric }
      | .json j =>
        match zodParseCorrection j with
        | some r => { s1 with result := some r }
        | none => { s1 with error := errGeneric }
    ⟨{ s2 with loading := false }, true⟩

/-- Session state together with the browser-local storage slot under the
fixed key `gemini_api_key` (`none` = key absent). -/
structure World where
  session : SessionState
  storedKey : Option String
deriving DecidableEq, Repr

/-- `handleSaveApiKey`: when the pending value is non-empty after trimming,
persist the trimmed value, adopt it in memory, close the settings modal and
clear the pending value; otherwise do nothing. -/
def handleSaveApiKey (w : World) : World :=
  if trimStr w.session.tempApiKey = "" then w
  else
    { storedKey := some (trimStr w.session.tempApiKey)
      session :=
        { w.session with
          apiKey := trimStr w.session.tempApiKey
          showSettings := false
          tempApiKey := "" } }

/-! ## Concrete states and inputs used by the witness theorems -/

/-- A concrete session state with a non-empty input and a stored
credential, used to instantiate the universally quantified theorems. -/
def baseState : SessionState :=
  { apiKey := "key", showSettings := false, tempApiKey := "",
    inputText := "she dont like apples", result := none, loading := false,
    error := "", simpleView := false }

/-- A structured-mode JSON object whose three fields decode successfully to
empty strings. -/
def emptyFieldsJson : Json :=
  Json.obj [("correctedText", Json.str ""), ("wordUsage", Json.str ""),
            ("explanation", Json.str "")]

/-- JSON fields for the C4 witness; the untrimmed value `" A "` shows the
stored result is verbatim. -/
def roundtripFields : List (String × Json) :=
  [("correctedText", Json.str " A "), ("wordUsage", Json.str "B"),
   ("explanation", Json.str "C")]

/-- A concrete state whose input is whitespace-only. -/
def blankInputState : SessionState :=
  { baseState with inputText := "   " }

/-- A concrete state with input but no credential. -/
def noKeyState : SessionState :=
  { baseState with apiKey := "" }

/-- A world whose pending credential is `" abc "`. -/
def pendingKeyWorld : World :=
  { session := { baseState with tempApiKey := " abc " }, storedKey := none }

/-- A world whose pending credential is whitespace-only while a credential
is already stored. -/
def blankPendingWorld : World :=
  { session := { baseState with tempApiKey := "  " }, storedKey := some "old" }

/-! ## Supporting lemmas about markers and trimming -/

theorem containsSub_tail {m : List Char} {c : Char} {cs : List Char}
    (h : containsSub m (c :: cs) = false) : containsSub m cs = false := by
  simp [containsSub] at h
  exact h.2

theorem containsSub_head {m : List Char} {c : Char} {cs : List Char}
    (h : containsSub m (c :: cs) = false) : startsWithL m (c :: cs) = false := by
  simp [containsSub] at h
  exact h.1

theorem containsSub_drop {m : List Char} (n : Nat) {l : List Char}
    (h : containsSub m l = false) : containsSub m (l.drop n) = false := by
  induction l generalizing n with
  | nil => simpa using h
  | cons c cs ih =>
    cases n with
    | zero => exact h
    | succ k => exact ih k (containsSub_tail h)

theorem containsSub_dropWhile {m : List Char} (p : Char → Bool) {l : List Char}
    (h : containsSub m l = false) : containsSub m (l.dropWhile p) = false := by
  induction l with
  | nil => simpa using h
  | cons c cs ih =>
    rw [List.dropWhile_cons]
    by_cases hc : p c = true
    · rw [if_pos hc]
      exact ih (containsSub_tail h)
    · rw [if_neg hc]
      exact h

theorem findMarker_none {m l : List Char} (h : containsSub m l = false) :
    findMarker m l = none := by
  induction l with
  | nil =>
    cases m with
    | nil => simp [containsSub] at h
    | cons a as => simp [findMarker]
  | cons c cs ih =>
    rw [findMarker, if_neg (by simp [containsSub_head h])]
    exact ih (containsSub_tail h)

theorem findMarker_isSome {m l : List Char} (h : containsSub m l = true) :
    ∃ r, findMarker m l = some r := by
  induction l with
  | nil =>
    cases m with
    | nil => exact ⟨[], by simp [findMarker]⟩
    | cons a as => simp [containsSub] at h
  | cons c cs ih =>
    cases hs : startsWithL m (c :: cs) with
    | true => exact ⟨(c :: cs).drop m.length, by rw [findMarker, if_pos hs]⟩
    | false =>
      have h2 : containsSub m cs = true := by
        simp [containsSub, hs] at h
        exact h
      obtain ⟨r, hr⟩ := ih h2
      exact ⟨r, by rw [findMarker, if_neg (by simp [hs]), hr]⟩

theorem findMarker_contains {m m' : List Char} {l r : List Char}
    (hf : findMarker m l = some r) (h : containsSub m' l = false) :
    containsSub m' r = false := by
  induction l with
  | nil =>
    cases m with
    | nil =>
      rw [findMarker] at hf
      cases hf
      exact h
    | cons a as =>
      rw [findMarker] at hf
      cases hf
  | cons c cs ih =>
    by_cases hs : startsWithL m (c :: cs) = true
    · rw [findMarker, if_pos hs] at hf
      cases hf
      exact containsSub_drop m.length h
    · rw [findMarker, if_neg hs] at hf
      exact ih hf (containsSub_tail h)

theorem takeUntilMarker_eq_self {m l : List Char} (h : containsSub m l = false) :
    takeUntilMarker m l = l := by
  induction l with
  | nil => rfl
  | cons c cs ih =>
    rw [takeUntilMarker, if_neg (by simp [containsSub_head h])]
    rw [ih (containsSub_tail h)]

theorem dropWhile_dropWhile (p : Char → Bool) (l : List Char) :
    (l.dropWhile p).dropWhile p = l.dropWhile p := by
  induction l with
  | nil => rfl
  | cons c cs ih =>
    rw [List.dropWhile_cons]
    by_cases hc : p c = true
    · rw [if_pos hc]
      exact ih
    · rw [if_neg hc, List.dropWhile_cons, if_neg hc]

theorem trimEnd_cons (c : Char) (cs : List Char) :
    trimEnd (c :: cs) =
      match trimEnd cs with
      | [] => if isWs c then [] else [c]
      | d :: ds => c :: d :: ds := by
  rw [trimEnd]

theorem trimEnd_cons_shape (c : Char) (cs : List Char) :
    trimEnd (c :: cs) = [] ∨ ∃ r, trimEnd (c :: cs) = c :: r := by
  rw [trimEnd_cons]
  cases trimEnd cs with
  | nil =>
    by_cases hc : isWs c = true
    · left
      simp [hc]
    · right
      exact ⟨[], by simp [hc]⟩
  | cons d ds =>
    right
    exact ⟨d :: ds, rfl⟩

theorem trimEnd_trimEnd (l : List Char) : trimEnd (trimEnd l) = trimEnd l := by
  induction l with
  | nil => rfl
  | cons c cs ih =>
    rw [trimEnd_cons]
    cases h : trimEnd cs with
    | nil =>
      by_cases hc : isWs c = true
      · simp [hc]
        rfl
      · have h1 : trimEnd [c] = [c] := by
          rw [trimEnd_cons]
          simp [trimEnd, hc]
        simp [hc, h1]
    | cons d ds =>
      have h2 : trimEnd (d :: ds) = d :: ds := h ▸ ih
      rw [trimEnd_cons, h2]

theorem dropWhile_cons_self {p : Char → Bool} {c : Char} {cs : List Char}
    (h : List.dropWhile p (c :: cs) = c :: cs) : p c = false := by
  cases hc : p c with
  | false => rfl
  | true =>
    rw [List.dropWhile_cons, if_pos hc] at h
    have hsub : List.Sublist (List.dropWhile p cs) cs := List.dropWhile_sublist p
    have hlen : (List.dropWhile p cs).length ≤ cs.length := hsub.length_le
    rw [h] at hlen
    simp at hlen

theorem dropWhile_trimEnd {l : List Char} (h : List.dropWhile isWs l = l) :
    List.dropWhile isWs (trimEnd l) = trimEnd l := by
  cases l with
  | nil => rfl
  | cons c cs =>
    have hc : isWs c = false := dropWhile_cons_self h
    rcases trimEnd_cons_shape c cs with h0 | ⟨r, hr⟩
    · rw [h0]
      rfl
    · rw [hr, List.dropWhile_cons, if_neg (by simp [hc])]

theorem trimL_trimL (l : List Char) : trimL (trimL l) = trimL l := by
  unfold trimL
  rw [dropWhile_trimEnd (dropWhile_dropWhile isWs l), trimEnd_trimEnd]

theorem trimL_dropWhile (l : List Char) : trimL (l.dropWhile isWs) = trimL l := by
  unfold trimL
  rw [dropWhile_dropWhile]

theorem toList_asString (l : List Char) : (l.asString).toList = l := rfl

theorem trimStr_asString (l : List Char) : trimStr l.asString = (trimL l).asString := rfl

theorem trimStr_trimStr (s : String) : trimStr (trimStr s) = trimStr s := by
  unfold trimStr
  rw [toList_asString, trimL_trimL]

/-! ## Claim theorems -/

theorem trimStr_sectionField (o : Option (List Char)) (msg : String)
    (hmsg : trimStr msg = msg) :
    trimStr (sectionField o msg) = sectionField o msg := by
  cases o with
  | none => exact hmsg
  | some c =>
    show trimStr ((trimL c).asString) = (trimL c).asString
    rw [trimStr_asString, trimL_trimL]

/-- Claim C9: in labeled-section mode, no field of the parsed
`CorrectionResult` carries leading or trailing whitespace: a located
section is stored trimmed, and each fixed placeholder string is already
trimmed. -/
theorem c9_labeled_fields_trimmed (text : String) :
    trimStr (parseLabeled text).correctedText = (parseLabeled text).correctedText ∧
    trimStr (parseLabeled text).wordUsage = (parseLabeled text).wordUsage ∧
    trimStr (parseLabeled text).explanation = (parseLabeled text).explanation := by
  refine ⟨?_, ?_, ?_⟩
  · exact trimStr_sectionField _ _ (by decide)
  · exact trimStr_sectionField _ _ (by decide)
  · exact trimStr_sectionField _ _ (by decide)

/-- Claim C1: in labeled-section mode, when the literal marker
`WORD_USAGE:` does not occur anywhere in the response text, parsing yields
the `wordUsage` placeholder, and a `CORRECTED_TEXT:` or `EXPLANATION:`
section that is present still parses normally — equal to the trimmed text
after its own marker (which runs to end of input, the `WORD_USAGE:`
stop marker being absent); the operation still produces a full record. -/
theorem c1_missing_word_usage_marker (text : String)
    (h : containsStr "WORD_USAGE:" text = false) :
    (parseLabeled text).wordUsage = noWordUsageMsg ∧
    (containsStr "CORRECTED_TEXT:" text = true →
      (parseLabeled text).correctedText
        = trimStr (afterFirstStr "CORRECTED_TEXT:" text)) ∧
    (containsStr "EXPLANATION:" text = true →
      (parseLabeled text).explanation
        = trimStr (afterFirstStr "EXPLANATION:" text)) := by
  have hwu : containsSub wuMarker text.toList = false := h
  refine ⟨?_, ?_, ?_⟩
  · show sectionField (sectionCapture wuMarker exMarker text.toList) noWordUsageMsg
      = noWordUsageMsg
    rw [sectionCapture, findMarker_none hwu]
    rfl
  · intro hc
    obtain ⟨r, hr⟩ := findMarker_isSome (m := ctMarker) hc
    have hr' : containsSub wuMarker r = false := findMarker_contains hr hwu
    show sectionField (sectionCapture ctMarker wuMarker text.toList) noCorrectionMsg
      = trimStr (afterFirstStr "CORRECTED_TEXT:" text)
    rw [sectionCapture, hr]
    show (trimL (takeUntilMarker wuMarker (r.dropWhile isWs))).asString
      = trimStr (afterFirstStr "CORRECTED_TEXT:" text)
    rw [takeUntilMarker_eq_self (containsSub_dropWhile isWs hr')]
    show (trimL (r.dropWhile isWs)).asString = trimStr (afterFirstStr "CORRECTED_TEXT:" text)
    rw [trimL_dropWhile]
    show (trimL r).asString = trimStr (afterFirstStr "CORRECTED_TEXT:" text)
    rw [afterFirstStr]
    rw [show findMarker "CORRECTED_TEXT:".toList text.toList = some r from hr]
    rw [trimStr_asString]
  · intro hc
    obtain ⟨r, hr⟩ := findMarker_isSome (m := exMarker) hc
    show sectionField (sectionCaptureEnd exMarker text.toList) noExplanationMsg
      = trimStr (afterFirstStr "EXPLANATION:" text)
    rw [sectionCaptureEnd, hr]
    show (trimL (r.dropWhile isWs)).asString = trimStr (afterFirstStr "EXPLANATION:" text)
    rw [trimL_dropWhile]
    rw [afterFirstStr]
    rw [show findMarker "EXPLANATION:".toList text.toList = some r from hr]
    rw [trimStr_asString]

/-- Witness for C1 at a concrete response text with no `WORD_USAGE:`
marker. -/
theorem c1_missing_word_usage_marker_witness :
    containsStr "WORD_USAGE:" "CORRECTED_TEXT:\nA\n\nEXPLANATION:\nC" = false ∧
    (parseLabeled "CORRECTED_TEXT:\nA\n\nEXPLANATION:\nC").wordUsage = noWordUsageMsg ∧
    (parseLabeled "CORRECTED_TEXT:\nA\n\nEXPLANATION:\nC").correctedText
      = trimStr (afterFirstStr "CORRECTED_TEXT:" "CORRECTED_TEXT:\nA\n\nEXPLANATION:\nC") ∧
    (parseLabeled "CORRECTED_TEXT:\nA\n\nEXPLANATION:\nC").explanation
      = trimStr (afterFirstStr "EXPLANATION:" "CORRECTED_TEXT:\nA\n\nEXPLANATION:\nC") := by
  have h := c1_missing_word_usage_marker "CORRECTED_TEXT:\nA\n\nEXPLANATION:\nC" (by decide)
  exact ⟨by decide, h.1, h.2.1 (by decide), h.2.2 (by decide)⟩

/-- Claim C3: in labeled-section mode, the canonical three-section response
parses to exactly the record with the three section bodies. -/
theorem c3_canonical_labeled_parse :
    parseLabeled "CORRECTED_TEXT:\nA\n\nWORD_USAGE:\nB\n\nEXPLANATION:\nC"
      = { correctedText := "A", wordUsage := "B", explanation := "C" } := by
  decide

/-- Counterexample to C2 as stated: zod's `z.string()` does not require
non-emptiness, so decoding succeeds on a response whose three fields are
all the empty string, and the run stores that record as the result. -/
theorem c2_counterexample_empty_strings_decode :
    zodParseCorrection emptyFieldsJson
      = some { correctedText := "", wordUsage := "", explanation := "" } ∧
    (handleCorrectStructured (StructuredOutcome.json emptyFieldsJson) baseState).state.result
      = some { correctedText := "", wordUsage := "", explanation := "" } ∧
    ({ correctedText := "", wordUsage := "", explanation := "" } : CorrectionResult).correctedText
      = "" := by
  refine ⟨rfl, ?_, rfl⟩
  decide

/-- Claim C2 (amended): in structured mode, a decode failure (non-object,
missing field, or wrong type) is a hard parse failure — the run takes the
error path and stores no defaulted result; and whenever decoding succeeds
the record's three fields are exactly the string values found under the
three keys of the JSON object (present and of string type, though possibly
empty: non-emptiness is not enforced by the schema). -/
theorem c2_structured_decode_contract (s : SessionState) (j : Json)
    (hin : ¬ trimStr s.inputText = "") (hkey : ¬ s.apiKey = "") :
    (zodParseCorrection j = none →
      (handleCorrectStructured (StructuredOutcome.json j) s).state.error = errGeneric ∧
      (handleCorrectStructured (StructuredOutcome.json j) s).state.result = none ∧
      (handleCorrectStructured (StructuredOutcome.json j) s).state.loading = false) ∧
    (∀ r, zodParseCorrection j = some r →
      ∃ fs, j = Json.obj fs ∧
        lookupJson "correctedText" fs = some (Json.str r.correctedText) ∧
        lookupJson "wordUsage" fs = some (Json.str r.wordUsage) ∧
        lookupJson "explanation" fs = some (Json.str r.explanation)) := by
  constructor
  · intro hz
    unfold handleCorrectStructured
    rw [if_neg hin, if_neg hkey]
    simp [hz]
  · intro r hr
    cases j with
    | str a => exact absurd hr (by simp [zodParseCorrection])
    | num n => exact absurd hr (by simp [zodParseCorrection])
    | bool b => exact absurd hr (by simp [zodParseCorrection])
    | null => exact absurd hr (by simp [zodParseCorrection])
    | arr xs => exact absurd hr (by simp [zodParseCorrection])
    | obj fs =>
      refine ⟨fs, rfl, ?_⟩
      simp only [zodParseCorrection] at hr
      cases h1 : lookupJson "correctedText" fs with
      | none => rw [h1] at hr; simp at hr
      | some v1 =>
        cases h2 : lookupJson "wordUsage" fs with
        | none => rw [h1, h2] at hr; cases v1 <;> simp at hr
        | some v2 =>
          cases h3 : lookupJson "explanation" fs with
          | none => rw [h1, h2, h3] at hr; cases v1 <;> cases v2 <;> simp at hr
          | some v3 =>
            rw [h1, h2, h3] at hr
            cases v1 with
            | str a =>
              cases v2 with
              | str b =>
                cases v3 with
                | str c =>
                  simp only [Option.some.injEq] at hr
                  subst hr
                  exact ⟨rfl, rfl, rfl⟩
                | num n => simp at hr
                | bool x => simp at hr
                | null => simp at hr
                | arr xs => simp at hr
                | obj g => simp at hr
              | num n => cases v3 <;> simp at hr
              | bool x => cases v3 <;> simp at hr
              | null => cases v3 <;> simp at hr
              | arr xs => cases v3 <;> simp at hr
              | obj g => cases v3 <;> simp at hr
            | num n => cases v2 <;> cases v3 <;> simp at hr
            | bool x => cases v2 <;> cases v3 <;> simp at hr
            | null => cases v2 <;> cases v3 <;> simp at hr
            | arr xs => cases v2 <;> cases v3 <;> simp at hr
            | obj g => cases v2 <;> cases v3 <;> simp at hr

/-- Witness for C2 (amended) at a concrete state and a JSON value the
schema rejects (`null` is not an object). -/
theorem c2_structured_decode_contract_witness :
    (handleCorrectStructured (StructuredOutcome.json Json.null) baseState).state.error
      = errGeneric ∧
    (handleCorrectStructured (StructuredOutcome.json Json.null) baseState).state.result
      = none ∧
    (handleCorrectStructured (StructuredOutcome.json Json.null) baseState).state.loading
      = false := by
  exact (c2_structured_decode_contract baseState Json.null (by decide) (by decide)).1 rfl

/-- Claim C4: with non-empty input and a credential, a successful
structured-mode response whose JSON object carries all three fields as
strings stores a `CorrectionResult` equal to those three values verbatim —
no trimming, truncation or rewriting. -/
theorem c4_structured_roundtrip (s : SessionState) (fs : List (String × Json))
    (a b c : String)
    (hin : ¬ trimStr s.inputText = "") (hkey : ¬ s.apiKey = "")
    (ha : lookupJson "correctedText" fs = some (Json.str a))
    (hb : lookupJson "wordUsage" fs = some (Json.str b))
    (hc : lookupJson "explanation" fs = some (Json.str c)) :
    (handleCorrectStructured (StructuredOutcome.json (Json.obj fs)) s).state.result
      = some { correctedText := a, wordUsage := b, explanation := c } := by
  unfold handleCorrectStructured
  rw [if_neg hin, if_neg hkey]
  simp [zodParseCorrection, ha, hb, hc]

/-- Witness for C4 at a concrete state and response. -/
theorem c4_structured_roundtrip_witness :
    (handleCorrectStructured (StructuredOutcome.json (Json.obj roundtripFields)) baseState).state.result
      = some { correctedText := " A ", wordUsage := "B", explanation := "C" } := by
  exact c4_structured_roundtrip baseState roundtripFields " A " "B" "C"
    (by decide) (by decide) rfl rfl rfl

/-- Claim C5: for every submission that reaches the loading phase
(non-empty trimmed input and a credential), any failure of the correction
call — a thrown network/auth error, an empty response, or (in structured
mode) a JSON or schema parse failure — leaves the session in the error
state: the single generic user-facing message is set, the result is `none`
(any prior result was cleared and none restored), and `loading` is false
afterward. -/
theorem c5_failure_reaches_error_state (s : SessionState)
    (hin : ¬ trimStr s.inputText = "") (hkey : ¬ s.apiKey = "") :
    (∀ api : ApiOutcome,
      api = ApiOutcome.failure ∨ api = ApiOutcome.success "" →
      (handleCorrectLabeled api s).state.error = errGeneric ∧
      (handleCorrectLabeled api s).state.result = none ∧
      (handleCorrectLabeled api s).state.loading = false) ∧
    (∀ api : StructuredOutcome,
      (api = StructuredOutcome.failure ∨ api = StructuredOutcome.emptyText ∨
       api = StructuredOutcome.badJson ∨
       ∃ j, api = StructuredOutcome.json j ∧ zodParseCorrection j = none) →
      (handleCorrectStructured api s).state.error = errGeneric ∧
      (handleCorrectStructured api s).state.result = none ∧
      (handleCorrectStructured api s).state.loading = false) := by
  constructor
  · intro api h
    rcases h with h | h <;> subst h <;>
      (unfold handleCorrectLabeled; rw [if_neg hin, if_neg hkey]; simp)
  · intro api h
    rcases h with h | h | h | ⟨j, h, hz⟩ <;> subst h <;>
      (unfold handleCorrectStructured; rw [if_neg hin, if_neg hkey]; simp)
    simp [hz]

/-- Witness for C5 at a concrete state, with the network-failure outcome in
each mode. -/
theorem c5_failure_reaches_error_state_witness :
    (handleCorrectLabeled ApiOutcome.failure baseState).state.error = errGeneric ∧
    (handleCorrectLabeled ApiOutcome.failure baseState).state.result = none ∧
    (handleCorrectLabeled ApiOutcome.failure baseState).state.loading = false ∧
    (handleCorrectStructured StructuredOutcome.failure baseState).state.error = errGeneric := by
  have h := c5_failure_reaches_error_state baseState (by decide) (by decide)
  have h1 := h.1 ApiOutcome.failure (Or.inl rfl)
  have h2 := h.2 StructuredOutcome.failure (Or.inl rfl)
  exact ⟨h1.1, h1.2.1, h1.2.2, h2.1⟩

/-- Claim C6: with empty or whitespace-only input, submitting never
invokes the correction client in either variant, and only the error
message changes — to each variant's "enter text" message — leaving every
other state field (including `loading`) unchanged. -/
theorem c6_empty_input_no_call (s : SessionState)
    (h : trimStr s.inputText = "") :
    (∀ api : ApiOutcome,
      (handleCorrectLabeled api s).apiCalled = false ∧
      (handleCorrectLabeled api s).state = { s with error := errEnterSentence }) ∧
    (∀ api : StructuredOutcome,
      (handleCorrectStructured api s).apiCalled = false ∧
      (handleCorrectStructured api s).state = { s with error := errEnterText }) := by
  constructor
  · intro api
    unfold handleCorrectLabeled
    rw [if_pos h]
    exact ⟨rfl, rfl⟩
  · intro api
    unfold handleCorrectStructured
    rw [if_pos h]
    exact ⟨rfl, rfl⟩

/-- Witness for C6 at a whitespace-only input. -/
theorem c6_empty_input_no_call_witness :
    (handleCorrectLabeled ApiOutcome.failure blankInputState).apiCalled = false ∧
    (handleCorrectLabeled ApiOutcome.failure blankInputState).state
      = { blankInputState with error := errEnterSentence } ∧
    (handleCorrectStructured StructuredOutcome.failure blankInputState).apiCalled = false := by
  have h := c6_empty_input_no_call blankInputState (by decide)
  exact ⟨(h.1 ApiOutcome.failure).1, (h.1 ApiOutcome.failure).2,
    (h.2 StructuredOutcome.failure).1⟩

/-- Claim C7: with non-empty trimmed input but no credential set,
submitting never invokes the correction client, forces the settings modal
visible and sets the "set API key" error, in both variants. -/
theorem c7_no_credential_no_call (s : SessionState)
    (hin : ¬ trimStr s.inputText = "") (hkey : s.apiKey = "") :
    (∀ api : ApiOutcome,
      (handleCorrectLabeled api s).apiCalled = false ∧
      (handleCorrectLabeled api s).state
        = { s with showSettings := true, error := errSetKey }) ∧
    (∀ api : StructuredOutcome,
      (handleCorrectStructured api s).apiCalled = false ∧
      (handleCorrectStructured api s).state
        = { s with showSettings := true, error := errSetKey }) := by
  constructor
  · intro api
    unfold handleCorrectLabeled
    rw [if_neg hin, if_pos hkey]
    exact ⟨rfl, rfl⟩
  · intro api
    unfold handleCorrectStructured
    rw [if_neg hin, if_pos hkey]
    exact ⟨rfl, rfl⟩

/-- Witness for C7 at a concrete state with no credential. -/
theorem c7_no_credential_no_call_witness :
    (handleCorrectLabeled ApiOutcome.failure noKeyState).apiCalled = false ∧
    (handleCorrectLabeled ApiOutcome.failure noKeyState).state
      = { noKeyState with showSettings := true, error := errSetKey } ∧
    (handleCorrectStructured StructuredOutcome.failure noKeyState).apiCalled = false := by
  have h := c7_no_credential_no_call noKeyState (by decide) (by decide)
  exact ⟨(h.1 ApiOutcome.failure).1, (h.1 ApiOutcome.failure).2,
    (h.2 StructuredOutcome.failure).1⟩

/-- Claim C8: saving a pending credential whose trim is non-empty persists
the trimmed value to the storage slot and sets the in-memory credential to
the same trimmed value, so persisted and in-memory credential are equal
and carry no surrounding whitespace. -/
theorem c8_save_persists_trimmed (w : World)
    (h : ¬ trimStr w.session.tempApiKey = "") :
    (handleSaveApiKey w).storedKey = some (trimStr w.session.tempApiKey) ∧
    (handleSaveApiKey w).session.apiKey = trimStr w.session.tempApiKey ∧
    trimStr (handleSaveApiKey w).session.apiKey = (handleSaveApiKey w).session.apiKey := by
  unfold handleSaveApiKey
  rw [if_neg h]
  exact ⟨rfl, rfl, trimStr_trimStr _⟩

/-- Witness for C8 with pending value `" abc "`: both the persisted and the
in-memory credential come out as `"abc"`. -/
theorem c8_save_persists_trimmed_witness :
    (handleSaveApiKey pendingKeyWorld).storedKey = some "abc" ∧
    (handleSaveApiKey pendingKeyWorld).session.apiKey = "abc" := by
  have h := c8_save_persists_trimmed pendingKeyWorld (by decide)
  have ht : trimStr pendingKeyWorld.session.tempApiKey = "abc" := by decide
  exact ⟨by rw [h.1, ht], by rw [h.2.1, ht]⟩

/-- Claim C10: saving while the pending credential trims to empty is a
complete no-op — storage is not written and the whole session state
(credential, settings visibility, pending value) is unchanged. -/
theorem c10_save_blank_noop (w : World)
    (h : trimStr w.session.tempApiKey = "") :
    handleSaveApiKey w = w := by
  unfold handleSaveApiKey
  rw [if_pos h]

/-- Witness for C10 at a whitespace-only pending credential. -/
theorem c10_save_blank_noop_witness :
    handleSaveApiKey blankPendingWorld = blankPendingWorld :=
  c10_save_blank_noop blankPendingWorld (by decide)
